import Mathlib

/-!
Verification development for the adaptive cancer-risk quiz engine of the
quirky-cancer-scanner repository.  The quiz page holds its state in a set
of framework state cells, and its event handlers close over the state
snapshot of the render that created them: within one submission event
every read of `state.X` sees the event-start values, while the `setState`
calls only enqueue updates that apply for the next render.  The embedding
passes both pieces explicitly: `snap` is the read-only snapshot that every
in-event read consults, `cur` accumulates the enqueued updates, and an
event returns the accumulated state together with the external calls made
(answer persistence, risk-tier lookup) and a marker for the one spot where
the source recurses on the unchanged snapshot queue without bound.
JavaScript numbers are embedded as rationals extended with the non-finite
values NaN and plus/minus Infinity, which the scoring code can produce by
dividing by an unguarded `max - min`.
-/

namespace QuirkyQuiz

/-- A submitted answer value: the source types responses as
string-or-number. -/
inductive Value where
  | str (s : String)
  | num (q : ℚ)
deriving DecidableEq

/-- JavaScript truthiness of an answer value: the empty string and the
number 0 are falsy, everything else is truthy. -/
def Value.truthy : Value → Bool
  | .str s => s ≠ ""
  | .num q => q ≠ 0

/-- JavaScript string coercion (`response.toString()`), for the values this
program actually coerces: strings are returned unchanged, integral numbers
print their integer form. -/
def valueToString : Value → String
  | .str s => s
  | .num q => if q.den = 1 then toString q.num else toString q

/-- A JavaScript number: a finite rational or one of the IEEE special
values that unguarded division can produce. -/
inductive JNum where
  | fin (q : ℚ)
  | posInf
  | negInf
  | nan
deriving DecidableEq

/-- IEEE addition on embedded JavaScript numbers. -/
def jadd : JNum → JNum → JNum
  | .nan, _ => .nan
  | _, .nan => .nan
  | .posInf, .negInf => .nan
  | .negInf, .posInf => .nan
  | .posInf, _ => .posInf
  | _, .posInf => .posInf
  | .negInf, _ => .negInf
  | _, .negInf => .negInf
  | .fin a, .fin b => .fin (a + b)

/-- IEEE subtraction on embedded JavaScript numbers. -/
def jsub : JNum → JNum → JNum
  | .nan, _ => .nan
  | _, .nan => .nan
  | .posInf, .posInf => .nan
  | .negInf, .negInf => .nan
  | .posInf, _ => .posInf
  | _, .posInf => .negInf
  | .negInf, _ => .negInf
  | _, .negInf => .posInf
  | .fin a, .fin b => .fin (a - b)

/-- IEEE multiplication on embedded JavaScript numbers. -/
def jmul : JNum → JNum → JNum
  | .nan, _ => .nan
  | _, .nan => .nan
  | .fin a, .fin b => .fin (a * b)
  | .posInf, .posInf => .posInf
  | .posInf, .negInf => .negInf
  | .negInf, .posInf => .negInf
  | .negInf, .negInf => .posInf
  | .posInf, .fin b => if 0 < b then .posInf else if b < 0 then .negInf else .nan
  | .fin a, .posInf => if 0 < a then .posInf else if a < 0 then .negInf else .nan
  | .negInf, .fin b => if 0 < b then .negInf else if b < 0 then .posInf else .nan
  | .fin a, .negInf => if 0 < a then .negInf else if a < 0 then .posInf else .nan

/-- IEEE division on embedded JavaScript numbers; the program only ever
divides two finite values, so the remaining cases collapse to NaN. -/
def jdiv : JNum → JNum → JNum
  | .fin a, .fin b =>
      if b = 0 then (if a = 0 then .nan else if 0 < a then .posInf else .negInf)
      else .fin (a / b)
  | _, _ => .nan

/-- `Math.round`: rounds a finite value half toward positive infinity and
fixes the special values. -/
def jround : JNum → JNum
  | .fin q => .fin ((⌊q + 1/2⌋ : ℤ) : ℚ)
  | x => x

/-- `Number(value)`: numbers pass through; the empty string converts to 0,
integral strings parse, anything else this model maps to NaN. -/
def jsToNumber : Value → JNum
  | .num q => .fin q
  | .str s =>
      if s = "" then .fin 0
      else match s.toInt? with
        | some n => .fin (n : ℚ)
        | none => .nan

/-- The JSON `options` column of a question row. -/
structure QuestionOption where
  min : Option ℚ := none
  max : Option ℚ := none
  step : Option ℚ := none
  options : Option (List String) := none
  cancer_type_hints : Option (List (String × ℚ)) := none
deriving DecidableEq

/-- A question row as typed by the source. -/
structure Question where
  id : Int
  question_text : String := ""
  question_type : String
  options : QuestionOption := {}
  weight : ℚ
  category : Option String := none
  next_question_logic : Option (List (String × Int)) := none
deriving DecidableEq

/-- A risk-assessment row as typed by the source. -/
structure RiskAssessment where
  id : Int
  risk_level : String
  advice : String
  min_score : ℚ
  max_score : ℚ
  foods_to_eat : List String
  foods_to_avoid : List String
  cancer_type : Option String := none
deriving DecidableEq

/-- The response mapping keyed by question id. -/
abbrev AnswerMap := List (Int × Value)

/-- Read the answer recorded for a question id. -/
def lookupAnswer (rs : AnswerMap) (id : Int) : Option Value :=
  (List.find? (fun p => p.1 = id) rs).map (fun p => p.2)

/-- Record an answer, overwriting an earlier answer for the same id in
place (object spread keeps the original key position). -/
def setAnswer (rs : AnswerMap) (id : Int) (v : Value) : AnswerMap :=
  if List.any rs (fun p => p.1 = id) then
    List.map (fun p => if p.1 = id then (id, v) else p) rs
  else rs ++ [(id, v)]

/-- Read a key of a JSON branching-rules object. -/
def lookupKey (logic : List (String × Int)) (k : String) : Option Int :=
  (logic.find? (fun p => p.1 = k)).map (fun p => p.2)

/-- `Array.prototype.findIndex` on the question list: the index of the
first question with the given id, or -1. -/
def findQuestionIndex (qs : List Question) (tid : Int) : Int :=
  match qs.findIdx? (fun q => q.id = tid) with
  | some i => (i : Int)
  | none => -1

/-- The in-bounds test the source applies to the resolved next index
(`nextQuestionIndex < questions.length && nextQuestionIndex >= 0`). -/
def inRange (i : Int) (len : Nat) : Bool :=
  decide (i < (len : Int)) && decide (0 ≤ i)

/-- The next-question resolution of `handleResponse`: a literal
branch-rule entry is consulted only for string answers; otherwise the
`default` entry; otherwise sequential advance. -/
def resolveNextIndex (currentQuestion : Question) (response : Value)
    (questions : List Question) (currentQuestionIndex : Int) : Int :=
  match currentQuestion.next_question_logic with
  | none => currentQuestionIndex + 1
  | some logic =>
    match (match response with
           | .str s => lookupKey logic s
           | .num _ => none) with
    | some nextQuestionId => findQuestionIndex questions nextQuestionId
    | none =>
      match lookupKey logic "default" with
      | some nextQuestionId => findQuestionIndex questions nextQuestionId
      | none => currentQuestionIndex + 1

/-- Per-question score contribution: the body of the scoring loop of
`calculateRiskScore`.  A falsy answer is skipped (`if (!response)
continue`); the three question types dispatch as in the source switch. -/
def questionContribution (allResponses : AnswerMap) (question : Question) : JNum :=
  match lookupAnswer allResponses question.id with
  | none => .fin 0
  | some response =>
    if ¬ response.truthy then .fin 0
    else if question.question_type = "boolean" then
      if response = .str "Yes" then .fin question.weight else .fin 0
    else if question.question_type = "range" then
      match question.options.min, question.options.max with
      | some mn, some mx =>
        jround (jmul (jdiv (jsub (jsToNumber response) (.fin mn)) (.fin (mx - mn)))
          (.fin question.weight))
      | _, _ => .fin 0
    else if question.question_type = "select" then
      match question.options.options with
      | some opts =>
        if 0 < opts.length then
          match opts.findIdx? (fun o => o = valueToString response) with
          | some responseIndex =>
            jround (jmul (jdiv (.fin (responseIndex : ℚ)) (.fin ((opts.length : ℚ) - 1)))
              (.fin question.weight))
          | none => .fin 0
        else .fin 0
      | none => .fin 0
    else .fin 0

/-- The risk score: the sum of the per-question contributions over the
question set passed by the caller.  This is the scoring loop of the
source's `calculateRiskScore`, with the question set an explicit argument
as at the call sites of the queue-based quiz. -/
def calculateRiskScore (allResponses : AnswerMap) (questions : List Question) : JNum :=
  questions.foldl (fun totalScore q => jadd totalScore (questionContribution allResponses q)) (.fin 0)

/-- A general-phase answer counts as positive when it is present, truthy
and different from the negative sentinel (`!response || response === "No"`
skips it). -/
def isPositiveResponse : Option Value → Bool
  | none => false
  | some v => v.truthy && decide (v ≠ Value.str "No")

/-- Add a hint weight to a condition label's accumulator, discovering the
label at the end on first sight. -/
def addHint (acc : List (String × ℚ)) (label : String) (w : ℚ) : List (String × ℚ) :=
  if acc.any (fun p => p.1 = label) then
    acc.map (fun p => if p.1 = label then (p.1, p.2 + w) else p)
  else acc ++ [(label, w)]

/-- Accumulate the `cancer_type_hints` of every positively answered
general question, in question order, keeping labels in discovery order. -/
def accumulateHints (responses : AnswerMap) (generalQuestions : List Question) :
    List (String × ℚ) :=
  generalQuestions.foldl
    (fun acc q =>
      if isPositiveResponse (lookupAnswer responses q.id) then
        match q.options.cancer_type_hints with
        | some hints => hints.foldl (fun a p => addHint a p.1 p.2) acc
        | none => acc
      else acc)
    []

/-- Insert into a list sorted by descending score, after strictly greater
scores and before strictly smaller ones, so that equal scores keep their
relative order. -/
def insertDesc (p : String × ℚ) : List (String × ℚ) → List (String × ℚ)
  | [] => [p]
  | q :: rest => if q.2 ≤ p.2 then p :: q :: rest else q :: insertDesc p rest

/-- Stable sort by descending score. -/
def sortDesc : List (String × ℚ) → List (String × ℚ)
  | [] => []
  | p :: rest => insertDesc p (sortDesc rest)

/-- Modelled from the spec: the Candidate Detector `analyzeGeneralResponses`
that the queue-based quiz imports from `quizUtils` is not among the source
files; this definition follows section 4.2 of the specification.  It
accumulates hint weights of positively answered general questions, reports
`anyPositive` independently of the hints, answers `["general"]` when the
maximum accumulator value is zero, and otherwise lists the strictly
positive labels by descending score (stable on discovery order) with
`"general"` dropped when another label is present. -/
def analyzeGeneralResponses (responses : AnswerMap) (generalQuestions : List Question) :
    List String × Bool :=
  let accum : List (String × ℚ) := accumulateHints responses generalQuestions
  let anyPositive : Bool :=
    generalQuestions.any (fun q => isPositiveResponse (lookupAnswer responses q.id))
  let maxScore : ℚ := accum.foldl (fun m p => max m p.2) 0
  if maxScore = 0 then (["general"], anyPositive)
  else
    let sorted : List (String × ℚ) := sortDesc (accum.filter (fun p => 0 < p.2))
    let candidates : List (String × ℚ) :=
      if sorted.any (fun p => p.1 ≠ "general") then
        sorted.filter (fun p => p.1 ≠ "general")
      else sorted
    (candidates.map (fun p => p.1), anyPositive)

/-- The quiz page's state cells, as one record. -/
structure QuizState where
  questions : List Question
  generalQuestions : List Question
  specializedQuestions : List Question
  currentQuestionIndex : Int
  responses : AnswerMap
  quizCompleted : Bool
  score : JNum
  riskAssessment : Option RiskAssessment
  quizPhase : String
  detectedCancerTypes : List String
  currentCancerType : Option String
  allCancerTypesProcessed : Bool
  cancerTypesQueue : List String
  hasPositiveResponses : Bool
deriving DecidableEq

/-- An observable call to an external collaborator: persisting the answer
mapping, or querying the risk-tier table with a score and an optional
cancer-type filter. -/
inductive Effect where
  | saveAll (responses : AnswerMap)
  | fetchTier (score : JNum) (scope : Option String)
deriving DecidableEq

/-- The Risk Tier Lookup collaborator: what the `risk_assessments` range
query (optionally filtered by cancer type) returns, `none` when no single
row matches. -/
def TierLookup := JNum → Option String → Option RiskAssessment

/-- The initial state after the two question fetches succeed. -/
def initState (generalData specializedData : List Question) : QuizState where
  questions := generalData
  generalQuestions := generalData
  specializedQuestions := specializedData
  currentQuestionIndex := 0
  responses := []
  quizCompleted := false
  score := .fin 0
  riskAssessment := none
  quizPhase := "general"
  detectedCancerTypes := []
  currentCancerType := none
  allCancerTypesProcessed := false
  cancerTypesQueue := []
  hasPositiveResponses := false

/-- `fetchRiskAssessment`: query the tier table with the score, filtered
by the snapshot's primary detected cancer type when it is specific; on
success store the row and the score into the accumulated state, on a
failed lookup leave it unchanged. -/
def fetchRiskAssessment (lt : TierLookup) (snap cur : QuizState) (score : JNum) :
    QuizState × List Effect :=
  let primaryCancerType := snap.detectedCancerTypes.head?
  let scope :=
    match primaryCancerType with
    | some t => if t ≠ "general" then some t else none
    | none => none
  match lt score scope with
  | some data =>
    ({ cur with riskAssessment := some data, score := score }, [.fetchTier score scope])
  | none => (cur, [.fetchTier score scope])

/-- `saveAllResponses` as an effect: one persistence call carrying the full
answer mapping. -/
def saveAllResponses (allResponses : AnswerMap) : List Effect :=
  [.saveAll allResponses]

/-- The outcome of one submission event: the state cells after all the
enqueued updates apply, the external calls performed, and whether the
event fell into the source's unbounded recursion (which ends only by
stack exhaustion and is surfaced through the catch block). -/
structure EventResult where
  state : QuizState
  effects : List Effect
  diverged : Bool := false
deriving DecidableEq

/-- The quiz-completion step, duplicated in the source between
`loadNextCancerType` — which passes the stale snapshot `state.responses` —
and the specialized end-of-set branch of `handleResponse` — which passes
the fresh `newResponses`: persist and score the given answer map over the
snapshot's general questions plus the specialized questions of the
snapshot's detected types, fetch the tier, and mark the quiz completed. -/
def completeQuiz (lt : TierLookup) (responses : AnswerMap) (snap cur : QuizState) :
    EventResult :=
  let finalScore := calculateRiskScore responses
    (snap.generalQuestions ++ snap.specializedQuestions.filter
      (fun q => snap.detectedCancerTypes.contains (q.category.getD "")))
  let r := fetchRiskAssessment lt snap cur finalScore
  { state := { r.1 with
      quizCompleted := true
      allCancerTypesProcessed := true
      score := finalScore }
    effects := saveAllResponses responses ++ r.2 }

/-- `loadNextCancerType`: pop the head of the SNAPSHOT queue (the enqueued
queue updates of this event are not visible) and activate its filtered
specialized set; an exhausted snapshot queue completes the quiz over the
stale snapshot responses and detected types.  When the popped candidate's
set is empty the source calls itself again, but the recursive call
re-reads the unchanged snapshot queue and so re-pops the same head without
bound, enqueueing the same two updates each time; the model returns those
enqueued updates with the `diverged` marker instead of recursing. -/
def loadNextCancerType (lt : TierLookup) (snap cur : QuizState) : EventResult :=
  match snap.cancerTypesQueue with
  | [] => completeQuiz lt snap.responses snap cur
  | nextType :: remainingQueue =>
    let cur1 := { cur with
        currentCancerType := some nextType
        cancerTypesQueue := remainingQueue }
    let specializedQuestionsForType : List Question :=
      snap.specializedQuestions.filter (fun q => q.category = some nextType)
    if 0 < specializedQuestionsForType.length then
      { state := { cur1 with
          questions := specializedQuestionsForType
          currentQuestionIndex := 0
          quizPhase := "specialized" }
        effects := [] }
    else { state := cur1, effects := [], diverged := true }

/-- `loadQuestionsForCancerType`: activate the snapshot's specialized
questions of the given cancer type, or, when none exist, fall into
`loadNextCancerType` — which consults the snapshot queue, not the queue
update enqueued earlier in the same event. -/
def loadQuestionsForCancerType (lt : TierLookup) (cancerType : String) (snap cur : QuizState) :
    EventResult :=
  let specializedQuestionsForType : List Question :=
    snap.specializedQuestions.filter (fun q => q.category = some cancerType)
  if 0 < specializedQuestionsForType.length then
    { state := { cur with
        questions := specializedQuestionsForType
        currentQuestionIndex := 0
        quizPhase := "specialized" }
      effects := [] }
  else loadNextCancerType lt snap cur

/-- `processGeneralPhaseCompletion`: run the Candidate Detector on the
responses argument; with no positive response complete immediately with
the healthy outcome; otherwise enqueue the detected types (dropping
`"general"` when specific ones exist) and start the first one; with
nothing to process complete with a score over the general questions. -/
def processGeneralPhaseCompletion (lt : TierLookup) (snap cur : QuizState)
    (responses : AnswerMap) : EventResult :=
  let r := analyzeGeneralResponses responses snap.generalQuestions
  if r.2 = false then
    { state := { cur with
        quizCompleted := true
        hasPositiveResponses := false
        allCancerTypesProcessed := true }
      effects := saveAllResponses responses }
  else
    let specificTypes := r.1.filter (fun t => t ≠ "general")
    let typesToProcess := if 0 < specificTypes.length then specificTypes else r.1
    match typesToProcess with
    | t :: rest =>
      let cur1 := { cur with
          detectedCancerTypes := typesToProcess
          cancerTypesQueue := rest
          currentCancerType := some t
          hasPositiveResponses := true }
      loadQuestionsForCancerType lt t snap cur1
    | [] =>
      let score := calculateRiskScore responses snap.generalQuestions
      let r2 := fetchRiskAssessment lt snap cur score
      { state := { r2.1 with
          quizCompleted := true
          score := score
          allCancerTypesProcessed := true
          hasPositiveResponses := true }
        effects := saveAllResponses responses ++ r2.2 }

/-- The question currently shown (`state.questions[state.currentQuestionIndex]`). -/
def currentQuestionOf (s : QuizState) : Option Question :=
  if 0 ≤ s.currentQuestionIndex then s.questions.get? s.currentQuestionIndex.toNat else none

/-- The end-of-set dispatch of `handleResponse`, deciding on the snapshot:
in the general phase run the general-phase completion; in the specialized
phase move down the queue when the snapshot queue is non-empty, otherwise
complete the quiz over the fresh `newResponses`. -/
def endOfSetStep (lt : TierLookup) (snap cur : QuizState) (newResponses : AnswerMap) :
    EventResult :=
  if snap.quizPhase = "general" then processGeneralPhaseCompletion lt snap cur newResponses
  else if snap.cancerTypesQueue ≠ [] then loadNextCancerType lt snap cur
  else completeQuiz lt newResponses snap cur

/-- `handleResponse`: one submission event.  Every read consults the
snapshot; the setState calls accumulate on top of it.  The answer is
recorded, the next index is resolved from the snapshot's current question,
and either the question at an in-bounds index is shown or the end-of-set
dispatch runs.  An out-of-bounds current index (no current question) only
records the answer, the thrown access being caught. -/
def handleResponse (lt : TierLookup) (snap : QuizState) (questionId : Int) (response : Value) :
    EventResult :=
  let newResponses := setAnswer snap.responses questionId response
  let cur0 := { snap with responses := newResponses }
  match currentQuestionOf snap with
  | none => { state := cur0, effects := [] }
  | some currentQuestion =>
    let nextQuestionIndex :=
      resolveNextIndex currentQuestion response snap.questions snap.currentQuestionIndex
    if inRange nextQuestionIndex snap.questions.length then
      { state := { cur0 with currentQuestionIndex := nextQuestionIndex }, effects := [] }
    else endOfSetStep lt snap cur0 newResponses

/-- `resetQuiz`: back to the initial general-phase state without touching
the loaded question lists; note that the source resets
`hasPositiveResponses` to `true`, not to its initial `false`. -/
def resetQuiz (s : QuizState) : QuizState :=
  { s with
    currentQuestionIndex := 0
    responses := []
    quizCompleted := false
    score := .fin 0
    riskAssessment := none
    quizPhase := "general"
    detectedCancerTypes := []
    currentCancerType := none
    allCancerTypesProcessed := false
    cancerTypesQueue := []
    hasPositiveResponses := true
    questions := s.generalQuestions }

/-- Session states reachable from a freshly loaded quiz by submitting
answers and resetting; between events the snapshot is the applied state of
the previous event. -/
inductive Reachable (lt : TierLookup) (gen spec : List Question) : QuizState → Prop where
  | init : Reachable lt gen spec (initState gen spec)
  | step (s : QuizState) (qid : Int) (v : Value) :
      Reachable lt gen spec s → Reachable lt gen spec (handleResponse lt s qid v).state
  | reset (s : QuizState) : Reachable lt gen spec s → Reachable lt gen spec (resetQuiz s)

/-- The next-question rule in the words of the specification: the literal
branch entry matching a string answer, else the `default` entry, else
sequential advance. -/
def resolveNextClaim (q : Question) (v : Value) (qs : List Question) (idx : Int) : Int :=
  let entries := q.next_question_logic.getD []
  match (match v with
         | .str s => lookupKey entries s
         | .num _ => none) with
  | some tid => findQuestionIndex qs tid
  | none =>
    match lookupKey entries "default" with
    | some tid => findQuestionIndex qs tid
    | none => idx + 1

section Lemmas

/-- A finite IEEE sum has finite summands. -/
theorem jadd_eq_fin {a b : JNum} {c : ℚ} (h : jadd a b = .fin c) :
    ∃ x y, a = .fin x ∧ b = .fin y ∧ c = x + y := by
  cases a <;> cases b <;> simp [jadd] at h
  exact ⟨_, _, rfl, rfl, h.symm⟩

/-- A finite total score forces every per-question contribution (and the
accumulator) to be finite. -/
theorem foldl_jadd_fin (f : Question → JNum) :
    ∀ (l : List Question) (acc : JNum) (c : ℚ),
      l.foldl (fun t q => jadd t (f q)) acc = .fin c →
      (∃ a, acc = .fin a) ∧ ∀ q ∈ l, ∃ x, f q = .fin x := by
  intro l
  induction l with
  | nil => intro acc c h; simp_all
  | cons q l ih =>
    intro acc c h
    simp only [List.foldl_cons] at h
    obtain ⟨⟨a, ha⟩, hall⟩ := ih (jadd acc (f q)) c h
    obtain ⟨x, y, hx, hy, _⟩ := jadd_eq_fin ha
    exact ⟨⟨x, hx⟩, by
      intro p hp
      rcases List.mem_cons.mp hp with rfl | hp
      · exact ⟨y, hy⟩
      · exact hall p hp⟩

/-- Folding finite contributions computes the rational sum. -/
theorem foldl_jadd_sum (f : Question → JNum) (g : Question → ℚ) :
    ∀ (l : List Question) (a : ℚ), (∀ q ∈ l, f q = .fin (g q)) →
      l.foldl (fun t q => jadd t (f q)) (.fin a) = .fin (a + (l.map g).sum) := by
  intro l
  induction l with
  | nil => intro a _; simp
  | cons q l ih =>
    intro a h
    have hq : f q = .fin (g q) := h q (List.mem_cons_self q l)
    have hstep : jadd (.fin a) (f q) = .fin (a + g q) := by rw [hq]; simp [jadd]
    simp only [List.foldl_cons, hstep]
    rw [ih (a + g q) (fun p hp => h p (List.mem_cons_of_mem q hp))]
    rw [List.map_cons, List.sum_cons, add_assoc]

/-- Division of any value by a finite zero is never finite. -/
theorem jdiv_zero_ne_fin (a : JNum) (x : ℚ) : jdiv a (.fin 0) ≠ .fin x := by
  cases a <;> simp [jdiv] <;> split_ifs <;> simp

/-- Multiplying a non-finite value by a finite one stays non-finite. -/
theorem jmul_ne_fin {a : JNum} (h : ∀ z : ℚ, a ≠ .fin z) (w x : ℚ) :
    jmul a (.fin w) ≠ .fin x := by
  cases a with
  | fin z => exact absurd rfl (h z)
  | posInf => simp [jmul]; split_ifs <;> simp
  | negInf => simp [jmul]; split_ifs <;> simp
  | nan => simp [jmul]

/-- A finite rounded value comes from a finite value. -/
theorem jround_eq_fin {a : JNum} {x : ℚ} (h : jround a = .fin x) : ∃ q, a = .fin q := by
  cases a <;> simp [jround] at h ⊢

/-- The contribution of a range question whose bounds coincide is never a
finite number once a truthy answer is recorded for it. -/
theorem degenerate_range_contribution (rs : AnswerMap) (q : Question) (m : ℚ) (v : Value)
    (htype : q.question_type = "range")
    (hmin : q.options.min = some m) (hmax : q.options.max = some m)
    (hpres : lookupAnswer rs q.id = some v) (htr : v.truthy = true) :
    ∀ x : ℚ, questionContribution rs q ≠ .fin x := by
  intro x hx
  unfold questionContribution at hx
  rw [hpres] at hx
  simp only [htr, htype, hmin, hmax, Bool.true_eq_false, not_true_eq_false, if_false,
    if_true, reduceIte] at hx
  rw [sub_self] at hx
  obtain ⟨y, hy⟩ := jround_eq_fin hx
  exact jmul_ne_fin (jdiv_zero_ne_fin (jsub (jsToNumber v) (.fin m))) q.weight y hy

end Lemmas

section Claims

/-- A tier lookup that never matches; the tier table content is irrelevant
to the properties below. -/
def lt0 : TierLookup := fun _ _ => none

/-- C10: in the Scorer, a recorded answer whose value is falsy (the number
0 or the empty string) is treated exactly as an unanswered question and
contributes 0 regardless of question type, weight or range bounds. -/
theorem c10_falsy_treated_as_unanswered (rs : AnswerMap) (q : Question) (v : Value)
    (hpres : lookupAnswer rs q.id = some v) (hfalsy : v.truthy = false) :
    questionContribution rs q = .fin 0 ∧
      ∀ rs2 : AnswerMap, lookupAnswer rs2 q.id = none →
        questionContribution rs2 q = questionContribution rs q := by
  constructor
  · unfold questionContribution
    rw [hpres]
    simp [hfalsy]
  · intro rs2 h2
    unfold questionContribution
    rw [hpres, h2]
    simp [hfalsy]

/-- Witness for C10: a range question with `min = -10`, `max = 10`,
weight 20, answered with the number 0, contributes 0 (not the 10 the
normalization formula would give). -/
theorem c10_witness :
    questionContribution [((1 : Int), Value.num 0)]
        { id := 1, question_type := "range", weight := 20,
          options := { min := some (-10), max := some 10 } } = JNum.fin 0 ∧
      JNum.fin 0 ≠ JNum.fin 10 := by
  refine ⟨(c10_falsy_treated_as_unanswered _ _ (Value.num 0) (by with_unfolding_all decide)
    (by with_unfolding_all decide)).1, by with_unfolding_all decide⟩

/-- C9: a numeric answer never consults the literal branch-rule entries;
resolution goes to the `default` entry when present, else to sequential
advance, even when the number's decimal form occurs as a literal key. -/
theorem c9_numeric_answer_skips_literals (q : Question) (n : ℚ) (qs : List Question) (idx : Int) :
    resolveNextIndex q (.num n) qs idx =
      match lookupKey (q.next_question_logic.getD []) "default" with
      | some tid => findQuestionIndex qs tid
      | none => idx + 1 := by
  cases hl : q.next_question_logic with
  | none => simp [resolveNextIndex, hl, lookupKey]
  | some logic => simp [resolveNextIndex, hl]

/-- C7 counterexample: with a degenerate range question (`min = max = 5`,
weight 10) answered 7 next to a boolean question (weight 10) answered
"Yes", the total score is positive infinity, not the 10 that a zero
contribution from the degenerate question would leave. -/
theorem c7_counterexample :
    calculateRiskScore [((1 : Int), Value.num 7), ((2 : Int), Value.str "Yes")]
        [{ id := 1, question_type := "range", weight := 10,
            options := { min := some 5, max := some 5 } },
         { id := 2, question_type := "boolean", weight := 10 }] = JNum.posInf ∧
      JNum.posInf ≠ JNum.fin 10 := by
  constructor
  · with_unfolding_all decide
  · decide

/-- C7 amended: a range question with `max = min` and a present truthy
answer makes the whole score non-finite (NaN or an infinity): the division
is not guarded, so the other contributions are destroyed rather than
preserved; scoring still never throws, being a total function. -/
theorem c7_amended_degenerate_range_poisons_score (rs : AnswerMap) (qs : List Question)
    (q : Question) (m : ℚ) (v : Value)
    (hmem : q ∈ qs) (htype : q.question_type = "range")
    (hmin : q.options.min = some m) (hmax : q.options.max = some m)
    (hpres : lookupAnswer rs q.id = some v) (htr : v.truthy = true) :
    ∀ c : ℚ, calculateRiskScore rs qs ≠ .fin c := by
  intro c hc
  obtain ⟨_, hall⟩ := foldl_jadd_fin (questionContribution rs) qs (.fin 0) c hc
  obtain ⟨x, hx⟩ := hall q hmem
  exact degenerate_range_contribution rs q m v htype hmin hmax hpres htr x hx

/-- Witness for the amended C7, at the counterexample input. -/
theorem c7_witness :
    calculateRiskScore [((1 : Int), Value.num 7), ((2 : Int), Value.str "Yes")]
        [{ id := 1, question_type := "range", weight := 10,
            options := { min := some 5, max := some 5 } },
         { id := 2, question_type := "boolean", weight := 10 }] ≠ JNum.fin 20 := by
  exact c7_amended_degenerate_range_poisons_score _ _
    { id := 1, question_type := "range", weight := 10,
      options := { min := some 5, max := some 5 } } 5 (Value.num 7)
    (by decide) rfl rfl rfl (by with_unfolding_all decide) (by with_unfolding_all decide) 20

/-- C4 counterexample: a range question with `min = -10`, `max = 10`,
weight 20 and the present answer 0 contributes 0 (the falsy answer is
skipped), not the `round(weight * (0 - min) / (max - min)) = 10` the claim
computes for every present answer. -/
theorem c4_counterexample :
    calculateRiskScore [((1 : Int), Value.num 0)]
        [{ id := 1, question_type := "range", weight := 20,
            options := { min := some (-10), max := some 10 } }] = JNum.fin 0 ∧
      JNum.fin 0 ≠ JNum.fin ((⌊((0 : ℚ) - (-10)) / (10 - (-10)) * 20 + 1/2⌋ : ℤ) : ℚ) := by
  constructor
  · with_unfolding_all decide
  · with_unfolding_all decide

/-- C4 amended: for a question with a present answer the Scorer behaves by
type as claimed once the answer is truthy (a present falsy answer — the
number 0 or the empty string — contributes 0 instead), the range formula
holding for non-degenerate bounds and the select formula for at least two
choices; the final score is the sum of the contributions. -/
theorem c4_amended_scorer_contributions (rs : AnswerMap) (q : Question) (v : Value)
    (hpres : lookupAnswer rs q.id = some v) :
    (v.truthy = false → questionContribution rs q = .fin 0)
    ∧ (v.truthy = true → q.question_type = "boolean" →
        questionContribution rs q = if v = .str "Yes" then .fin q.weight else .fin 0)
    ∧ (∀ mn mx r, v = .num r → v.truthy = true → q.question_type = "range" →
        q.options.min = some mn → q.options.max = some mx → mx ≠ mn →
        questionContribution rs q = .fin ((⌊(r - mn) / (mx - mn) * q.weight + 1/2⌋ : ℤ) : ℚ))
    ∧ (∀ opts, v.truthy = true → q.question_type = "select" → q.options.options = some opts →
        (opts.findIdx? (fun o => o = valueToString v) = none →
          questionContribution rs q = .fin 0)
        ∧ (∀ i, opts.findIdx? (fun o => o = valueToString v) = some i → 2 ≤ opts.length →
            questionContribution rs q =
              .fin ((⌊(i : ℚ) / ((opts.length : ℚ) - 1) * q.weight + 1/2⌋ : ℤ) : ℚ)))
    ∧ (∀ (qs : List Question) (g : Question → ℚ),
        (∀ p ∈ qs, questionContribution rs p = .fin (g p)) →
        calculateRiskScore rs qs = .fin ((qs.map g).sum)) := by
  refine ⟨?_, ?_, ?_, ?_, ?_⟩
  · intro hf
    unfold questionContribution
    rw [hpres]
    simp [hf]
  · intro ht hb
    unfold questionContribution
    rw [hpres]
    simp [ht, hb]
  · intro mn mx r hv ht hr hmn hmx hne
    subst hv
    have hb : mx - mn ≠ 0 := sub_ne_zero.mpr hne
    unfold questionContribution
    rw [hpres]
    simp [ht, hr, hmn, hmx, jsToNumber, jsub, jdiv, hb, jmul, jround]
  · intro opts ht hs hopts
    constructor
    · intro hnone
      unfold questionContribution
      rw [hpres]
      by_cases hl : 0 < opts.length <;> simp [ht, hs, hopts, hnone, hl]
    · intro i hidx hlen
      have hl : 0 < opts.length := by omega
      have h2 : (2 : ℚ) ≤ (opts.length : ℚ) := by exact_mod_cast hlen
      have hne1 : ((opts.length : ℚ) - 1) ≠ 0 := by linarith
      unfold questionContribution
      rw [hpres]
      simp [ht, hs, hopts, hidx, hl, jdiv, hne1, jmul, jround]
  · intro qs g hall
    unfold calculateRiskScore
    rw [foldl_jadd_sum (questionContribution rs) g qs 0 hall, zero_add]

/-- Witness for the amended C4: a select question with three choices and
weight 9 answered with the middle choice contributes `round(9 * 1/2) = 5`. -/
theorem c4_witness :
    questionContribution [((1 : Int), Value.str "b")]
        { id := 1, question_type := "select", weight := 9,
          options := { options := some ["a", "b", "c"] } } = JNum.fin 5 := by
  have h := c4_amended_scorer_contributions [((1 : Int), Value.str "b")]
    { id := 1, question_type := "select", weight := 9,
      options := { options := some ["a", "b", "c"] } } (Value.str "b")
    (by with_unfolding_all decide)
  have hsel := (h.2.2.2.1 ["a", "b", "c"] (by decide) rfl rfl).2 1
    (by decide) (by decide)
  rw [hsel]
  with_unfolding_all decide

/-- Fixtures: a general question whose only branch rule targets the absent
id 99, two plain general questions, and the state freshly loaded with
them. -/
def qBranch99 : Question :=
  { id := 1, question_type := "boolean", weight := 10,
    next_question_logic := some [("Yes", 99)] }

def qPlain2 : Question := { id := 2, question_type := "boolean", weight := 10 }

def qPlain3 : Question := { id := 3, question_type := "boolean", weight := 10 }

def sBranchMiss : QuizState := initState [qBranch99, qPlain2, qPlain3] []

/-- C3 counterexample: answering "Yes" on a question whose branch rule
targets the nonexistent id 99 resolves to -1 and triggers the end-of-set
phase completion (here the quiz completes), not the claimed sequential
advance to index 1. -/
theorem c3_counterexample :
    resolveNextIndex qBranch99 (Value.str "Yes") sBranchMiss.questions 0 = -1 ∧
      (handleResponse lt0 sBranchMiss 1 (Value.str "Yes")).state.currentQuestionIndex = 0 ∧
      (handleResponse lt0 sBranchMiss 1 (Value.str "Yes")).state.quizCompleted = true := by
  refine ⟨by decide, ?_, ?_⟩
  · with_unfolding_all decide
  · with_unfolding_all decide

/-- C3 amended: a branch-rule entry whose target id is absent from the
active set makes `findIndex` return -1, which fails the in-bounds check,
so answer submission runs the end-of-set dispatch (the phase transition)
instead of a sequential advance; no exception reaches the caller, the
resolution being total. -/
theorem c3_amended_branch_miss_is_end_of_set (q : Question) (v : Value) (qs : List Question)
    (idx : Int) (a : String) (tid : Int) (logic : List (String × Int))
    (hlogic : q.next_question_logic = some logic) (hv : v = .str a)
    (hlook : lookupKey logic a = some tid)
    (habs : ∀ p ∈ qs, p.id ≠ tid) :
    resolveNextIndex q v qs idx = -1 ∧ inRange (-1) qs.length = false ∧
      ∀ (lt : TierLookup) (s : QuizState) (qid : Int),
        s.questions = qs → s.currentQuestionIndex = idx → currentQuestionOf s = some q →
        handleResponse lt s qid v =
          endOfSetStep lt s { s with responses := setAnswer s.responses qid v }
            (setAnswer s.responses qid v) := by
  have hfind : findQuestionIndex qs tid = -1 := by
    unfold findQuestionIndex
    rw [List.findIdx?_eq_none_iff.mpr]
    intro p hp
    simpa using habs p hp
  have hres : resolveNextIndex q v qs idx = -1 := by
    subst hv
    unfold resolveNextIndex
    rw [hlogic]
    simp only [hlook, hfind]
  refine ⟨hres, by simp [inRange], ?_⟩
  intro lt s qid h1 h2 h3
  unfold handleResponse
  rw [h3, h1, h2]
  simp only [hres]
  simp [inRange]

/-- Witness for the amended C3, at the counterexample input. -/
theorem c3_witness :
    resolveNextIndex qBranch99 (Value.str "Yes") sBranchMiss.questions 0 = -1 ∧
      handleResponse lt0 sBranchMiss 1 (Value.str "Yes") =
        endOfSetStep lt0 sBranchMiss
          { sBranchMiss with responses := setAnswer sBranchMiss.responses 1 (Value.str "Yes") }
          (setAnswer sBranchMiss.responses 1 (Value.str "Yes")) := by
  have h := c3_amended_branch_miss_is_end_of_set qBranch99 (Value.str "Yes")
    sBranchMiss.questions 0 "Yes" 99 [("Yes", 99)] rfl rfl rfl (by decide)
  exact ⟨h.1, h.2.2 lt0 sBranchMiss 1 rfl rfl (by with_unfolding_all decide)⟩

/-- C5: the next-question index is resolved exactly as the specification
words it (`resolveNextClaim`); an index failing the bounds check is
precisely one that is at least the set length or negative, and
`handleResponse` shows the question at an in-bounds resolved index while an
out-of-bounds one runs the end-of-set dispatch (the phase transition). -/
theorem c5_next_question_resolution (lt : TierLookup) (s : QuizState) (qid : Int) (v : Value)
    (q : Question) (hq : currentQuestionOf s = some q) :
    resolveNextIndex q v s.questions s.currentQuestionIndex
        = resolveNextClaim q v s.questions s.currentQuestionIndex
    ∧ (∀ i : Int, inRange i s.questions.length = false ↔
        ((s.questions.length : Int) ≤ i ∨ i < 0))
    ∧ (inRange (resolveNextIndex q v s.questions s.currentQuestionIndex)
          s.questions.length = true →
        handleResponse lt s qid v =
          { state := { s with
              responses := setAnswer s.responses qid v
              currentQuestionIndex :=
                resolveNextIndex q v s.questions s.currentQuestionIndex }
            effects := [] })
    ∧ (inRange (resolveNextIndex q v s.questions s.currentQuestionIndex)
          s.questions.length = false →
        handleResponse lt s qid v =
          endOfSetStep lt s { s with responses := setAnswer s.responses qid v }
            (setAnswer s.responses qid v)) := by
  refine ⟨?_, ?_, ?_, ?_⟩
  · cases hl : q.next_question_logic with
    | none => cases v <;> simp [resolveNextIndex, resolveNextClaim, hl, lookupKey]
    | some logic => cases v <;> simp [resolveNextIndex, resolveNextClaim, hl]
  · intro i
    simp only [inRange, Bool.and_eq_false_iff, decide_eq_false_iff_not, not_lt]
    omega
  · intro hin
    unfold handleResponse
    rw [hq]
    simp only [hin, if_true]
  · intro hout
    unfold handleResponse
    rw [hq]
    simp only [hout, Bool.false_eq_true, if_false]

/-- A question whose branch rule on "Yes" targets the present id 3, and
the state freshly loaded with it and two plain questions. -/
def qBranchTo3 : Question :=
  { id := 1, question_type := "boolean", weight := 1, next_question_logic := some [("Yes", 3)] }

def sBranchHit : QuizState := initState [qBranchTo3, qPlain2, qPlain3] []

/-- Witness for C5: on a freshly loaded three-question set, answering
"Yes" on a question whose branch rule targets id 3 moves the session to
index 2. -/
theorem c5_witness :
    (handleResponse lt0 sBranchHit 1 (Value.str "Yes")).state.currentQuestionIndex = 2 ∧
      resolveNextIndex qBranchTo3 (Value.str "Yes") sBranchHit.questions 0 =
        resolveNextClaim qBranchTo3 (Value.str "Yes") sBranchHit.questions 0 := by
  have h := c5_next_question_resolution lt0 sBranchHit 1 (Value.str "Yes") qBranchTo3
    (by with_unfolding_all decide)
  refine ⟨?_, h.1⟩
  rw [h.2.2.1 (by decide)]
  decide

/-- With no positive general answer the hint accumulation leaves the
accumulator untouched. -/
theorem foldl_hints_const (rs : AnswerMap) :
    ∀ (l : List Question) (acc : List (String × ℚ)),
      (∀ q ∈ l, isPositiveResponse (lookupAnswer rs q.id) = false) →
      List.foldl
        (fun acc q =>
          if isPositiveResponse (lookupAnswer rs q.id) then
            match q.options.cancer_type_hints with
            | some hints => hints.foldl (fun a p => addHint a p.1 p.2) acc
            | none => acc
          else acc) acc l = acc := by
  intro l
  induction l with
  | nil => intro acc _; rfl
  | cons q l ih =>
    intro acc h
    have hq := h q (List.mem_cons_self q l)
    simp only [List.foldl_cons, hq, Bool.false_eq_true, if_false]
    exact ih acc (fun p hp => h p (List.mem_cons_of_mem q hp))

/-- C6: when every general answer is absent, falsy or the "No" sentinel,
the detector reports no positive response and the session transitions
directly to the healthy terminal: completed with
`hasPositiveResponses = false`, the score and tier untouched (the Scorer
is not invoked, no tier query is issued), and the answers persisted. -/
theorem c6_all_negative_reaches_healthy_terminal (lt : TierLookup) (snap cur : QuizState)
    (rs : AnswerMap)
    (hneg : ∀ q ∈ snap.generalQuestions, isPositiveResponse (lookupAnswer rs q.id) = false) :
    analyzeGeneralResponses rs snap.generalQuestions = (["general"], false) ∧
      processGeneralPhaseCompletion lt snap cur rs =
        { state := { cur with
            quizCompleted := true
            hasPositiveResponses := false
            allCancerTypesProcessed := true }
          effects := [Effect.saveAll rs] } := by
  have haccum : accumulateHints rs snap.generalQuestions = [] := by
    unfold accumulateHints
    exact foldl_hints_const rs snap.generalQuestions [] hneg
  have hany : snap.generalQuestions.any
      (fun q => isPositiveResponse (lookupAnswer rs q.id)) = false := by
    simp only [List.any_eq_false]
    intro q hq
    simp [hneg q hq]
  have hdet : analyzeGeneralResponses rs snap.generalQuestions = (["general"], false) := by
    unfold analyzeGeneralResponses
    rw [haccum, hany]
    simp
  refine ⟨hdet, ?_⟩
  unfold processGeneralPhaseCompletion
  rw [hdet]
  simp [saveAllResponses]

/-- A single-question general set with no hints, for the C6 and C2
witnesses. -/
def sOneGeneral : QuizState := initState [qPlain2] []

/-- Witness for C6: answering "No" to the only general question completes
the quiz with the healthy outcome and one persistence call. -/
theorem c6_witness :
    (processGeneralPhaseCompletion lt0 sOneGeneral sOneGeneral
        [((2 : Int), Value.str "No")]).state.quizCompleted = true ∧
      (processGeneralPhaseCompletion lt0 sOneGeneral sOneGeneral
          [((2 : Int), Value.str "No")]).state.hasPositiveResponses = false ∧
      (processGeneralPhaseCompletion lt0 sOneGeneral sOneGeneral
          [((2 : Int), Value.str "No")]).effects =
        [Effect.saveAll [((2 : Int), Value.str "No")]] := by
  have h := (c6_all_negative_reaches_healthy_terminal lt0 sOneGeneral sOneGeneral
    [((2 : Int), Value.str "No")] (by with_unfolding_all decide)).2
  rw [h]
  exact ⟨rfl, rfl, rfl⟩

/-- A specialized question of category "skin", and a fresh session holding
one hint-free general question alongside it. -/
def skinQ : Question :=
  { id := 4, question_type := "boolean", weight := 5, category := some "skin" }

def sGeneralOnly : QuizState := initState [qPlain2] [skinQ]

/-- C2 counterexample: with one positive answer and no hint weights the
detector does return `["general"]`, but submitting that answer does not
route to the healthy terminal: the session completes with
`hasPositiveResponses = true` (rendering the scored results view), and —
the completion reading the stale event-start snapshot — it persists and
scores the still-empty snapshot response map: score 0 and one tier query,
where the claim says no score is computed and no tier is fetched. -/
theorem c2_counterexample :
    analyzeGeneralResponses [((2 : Int), Value.str "Yes")] sGeneralOnly.generalQuestions
        = (["general"], true) ∧
      (handleResponse lt0 sGeneralOnly 2 (Value.str "Yes")).state.quizCompleted = true ∧
      (handleResponse lt0 sGeneralOnly 2 (Value.str "Yes")).state.hasPositiveResponses = true ∧
      (handleResponse lt0 sGeneralOnly 2 (Value.str "Yes")).state.score = JNum.fin 0 ∧
      (handleResponse lt0 sGeneralOnly 2 (Value.str "Yes")).effects =
        [Effect.saveAll [], Effect.fetchTier (JNum.fin 0) none] := by
  refine ⟨?_, ?_, ?_, ?_, ?_⟩ <;> with_unfolding_all decide

/-- C2 amended: when the detector answers `["general"]` with a positive
response present, the orchestrator treats `"general"` as a detected type:
its specialized set is empty (all specialized rows have another category),
so the fallback consults the snapshot queue — still empty when the general
phase ends — and the quiz completes as a scored result with
`hasPositiveResponses = true`; the completion reads the stale snapshot, so
it is the event-start response map that is persisted and scored over the
general questions, with one unscoped tier query. -/
theorem c2_amended_general_outcome_is_scored (lt : TierLookup) (snap cur : QuizState)
    (rs : AnswerMap)
    (hdet : analyzeGeneralResponses rs snap.generalQuestions = (["general"], true))
    (hspec : ∀ q ∈ snap.specializedQuestions, q.category ≠ some "general")
    (hq : snap.cancerTypesQueue = [])
    (hd0 : snap.detectedCancerTypes = []) :
    (processGeneralPhaseCompletion lt snap cur rs).state.quizCompleted = true ∧
      (processGeneralPhaseCompletion lt snap cur rs).state.hasPositiveResponses = true ∧
      (processGeneralPhaseCompletion lt snap cur rs).state.score
          = calculateRiskScore snap.responses snap.generalQuestions ∧
      (processGeneralPhaseCompletion lt snap cur rs).effects =
        [Effect.saveAll snap.responses,
          Effect.fetchTier (calculateRiskScore snap.responses snap.generalQuestions) none] := by
  have hfilter1 : snap.specializedQuestions.filter
      (fun q => q.category = some "general") = [] := by
    rw [List.filter_eq_nil_iff]
    intro q hq2
    simp [hspec q hq2]
  have hfilter3 : snap.specializedQuestions.filter
      (fun q => snap.detectedCancerTypes.contains (q.category.getD "")) = [] := by
    rw [hd0]
    simp
  unfold processGeneralPhaseCompletion
  rw [hdet]
  unfold loadQuestionsForCancerType loadNextCancerType completeQuiz fetchRiskAssessment
    saveAllResponses
  simp [hfilter1, hq, hd0, hfilter3]
  split <;> simp

/-- Witness for the amended C2, at the counterexample input: the snapshot
is the fresh session, the accumulated state already carries the new
answer. -/
theorem c2_witness :
    (processGeneralPhaseCompletion lt0 sGeneralOnly
        { sGeneralOnly with responses := [((2 : Int), Value.str "Yes")] }
        [((2 : Int), Value.str "Yes")]).state.hasPositiveResponses = true ∧
      (processGeneralPhaseCompletion lt0 sGeneralOnly
          { sGeneralOnly with responses := [((2 : Int), Value.str "Yes")] }
          [((2 : Int), Value.str "Yes")]).effects =
        [Effect.saveAll sGeneralOnly.responses,
          Effect.fetchTier (calculateRiskScore sGeneralOnly.responses
            sGeneralOnly.generalQuestions) none] := by
  have h := c2_amended_general_outcome_is_scored lt0 sGeneralOnly
    { sGeneralOnly with responses := [((2 : Int), Value.str "Yes")] }
    [((2 : Int), Value.str "Yes")] (by with_unfolding_all decide)
    (by with_unfolding_all decide) rfl rfl
  exact ⟨h.2.1, h.2.2.2⟩

/-- Completing the quiz never touches the loaded general question list of
the accumulated state. -/
theorem completeQuiz_generalQuestions (lt : TierLookup) (rs : AnswerMap)
    (snap cur : QuizState) :
    (completeQuiz lt rs snap cur).state.generalQuestions = cur.generalQuestions := by
  unfold completeQuiz fetchRiskAssessment
  dsimp only
  split <;> rfl

/-- The queue advance never touches the loaded general question list. -/
theorem loadNextCancerType_generalQuestions (lt : TierLookup) (snap cur : QuizState) :
    (loadNextCancerType lt snap cur).state.generalQuestions = cur.generalQuestions := by
  unfold loadNextCancerType
  dsimp only
  split
  · rw [completeQuiz_generalQuestions]
  · split <;> rfl

/-- Activating a cancer type never touches the loaded general question
list. -/
theorem loadQuestionsForCancerType_generalQuestions (lt : TierLookup) (ct : String)
    (snap cur : QuizState) :
    (loadQuestionsForCancerType lt ct snap cur).state.generalQuestions
        = cur.generalQuestions := by
  unfold loadQuestionsForCancerType
  dsimp only
  split
  · rfl
  · rw [loadNextCancerType_generalQuestions]

/-- The general-phase completion never touches the loaded general question
list. -/
theorem processGeneralPhaseCompletion_generalQuestions (lt : TierLookup)
    (snap cur : QuizState) (rs : AnswerMap) :
    (processGeneralPhaseCompletion lt snap cur rs).state.generalQuestions
        = cur.generalQuestions := by
  unfold processGeneralPhaseCompletion
  dsimp only
  split
  · rfl
  · split
    · rw [loadQuestionsForCancerType_generalQuestions]
    · unfold fetchRiskAssessment
      dsimp only
      split <;> rfl

/-- Answer submission never touches the loaded general question list. -/
theorem handleResponse_generalQuestions (lt : TierLookup) (s : QuizState) (qid : Int)
    (v : Value) :
    (handleResponse lt s qid v).state.generalQuestions = s.generalQuestions := by
  unfold handleResponse endOfSetStep
  dsimp only
  split
  · rfl
  · split
    · rfl
    · split
      · rw [processGeneralPhaseCompletion_generalQuestions]
      · split
        · rw [loadNextCancerType_generalQuestions]
        · rw [completeQuiz_generalQuestions]

/-- Every reachable session state still carries the originally loaded
general question list. -/
theorem reachable_generalQuestions (lt : TierLookup) (gen spec : List Question) :
    ∀ s : QuizState, Reachable lt gen spec s → s.generalQuestions = gen := by
  intro s h
  induction h with
  | init => rfl
  | step s qid v _ ih => rw [handleResponse_generalQuestions]; exact ih
  | reset s _ ih => simpa [resetQuiz] using ih

/-- C8: from every reachable session state, reset returns to the initial
general phase — general phase, empty answers, empty queue, no detected or
active candidate, not completed, index 0, score and tier cleared — and the
active set is again the originally loaded general question sequence; reset
is a pure state update, so no repository query is involved. -/
theorem c8_reset_restores_initial_state (lt : TierLookup) (gen spec : List Question)
    (s : QuizState) (h : Reachable lt gen spec s) :
    (resetQuiz s).quizPhase = "general" ∧ (resetQuiz s).responses = [] ∧
      (resetQuiz s).cancerTypesQueue = [] ∧ (resetQuiz s).detectedCancerTypes = [] ∧
      (resetQuiz s).currentCancerType = none ∧ (resetQuiz s).quizCompleted = false ∧
      (resetQuiz s).currentQuestionIndex = 0 ∧ (resetQuiz s).score = .fin 0 ∧
      (resetQuiz s).riskAssessment = none ∧ (resetQuiz s).questions = gen := by
  have hg := reachable_generalQuestions lt gen spec s h
  exact ⟨rfl, rfl, rfl, rfl, rfl, rfl, rfl, rfl, rfl, by simpa [resetQuiz] using hg⟩

/-- Witness for C8: after one submitted answer on a loaded session, reset
restores the original general set and clears the answers. -/
theorem c8_witness :
    (resetQuiz (handleResponse lt0 (initState [qPlain2] [skinQ]) 2
          (Value.str "Yes")).state).questions = [qPlain2] ∧
      (resetQuiz (handleResponse lt0 (initState [qPlain2] [skinQ]) 2
          (Value.str "Yes")).state).responses = [] := by
  have h := c8_reset_restores_initial_state lt0 [qPlain2] [skinQ] _
    (Reachable.step _ 2 (Value.str "Yes") Reachable.init)
  exact ⟨h.2.2.2.2.2.2.2.2.2, h.2.1⟩

/-- Specialized questions for the categories "A" and "C" (none for "B"). -/
def specA : Question :=
  { id := 10, question_type := "boolean", weight := 1, category := some "A" }

def specC : Question :=
  { id := 12, question_type := "boolean", weight := 1, category := some "C" }

/-- A specialized-phase session on candidate "A" whose queue holds the
empty candidate "B" ahead of "C" (which has questions). -/
def sStuckB : QuizState :=
  { initState [] [specA, specC] with
    questions := [specA]
    quizPhase := "specialized"
    cancerTypesQueue := ["B", "C"]
    currentCancerType := some "A"
    detectedCancerTypes := ["A", "B", "C"] }

/-- A general question whose positive answer hints the empty candidate "B"
above "C", and a fresh session holding it with specialized questions only
for "C". -/
def gHinted : Question :=
  { id := 5, question_type := "boolean", weight := 10,
    options := { cancer_type_hints := some [("B", 5), ("C", 3)] } }

def sGeneralHinted : QuizState := initState [gHinted] [specC]

/-- C1 (code defect): the queued traversal does not skip a candidate with
an empty specialized set and move on to the next type, although the
source's comments say it should.  Finishing the specialized set of "A"
with "B" (empty) then "C" (non-empty) queued diverges: the queue advance
re-reads the unchanged snapshot queue, so its recursive call re-pops "B"
forever — the event never completes the quiz, never changes the shown
question set, performs no external call, and "C" is never visited.  On
the general-to-specialized transition the same stale read instead
completes the quiz prematurely: with detected candidates `["B", "C"]` and
"B" empty, the fallback consults the still-empty snapshot queue, so the
session completes — its queue still holding "C" — persisting and scoring
the stale empty snapshot responses (score 0, one unscoped tier query)
despite the just-submitted answer. -/
theorem c1_stale_queue_bug :
    ((handleResponse lt0 sStuckB 10 (Value.str "Yes")).diverged = true ∧
      (handleResponse lt0 sStuckB 10 (Value.str "Yes")).state.questions = [specA] ∧
      (handleResponse lt0 sStuckB 10 (Value.str "Yes")).state.quizCompleted = false ∧
      (handleResponse lt0 sStuckB 10 (Value.str "Yes")).effects = [] ∧
      sStuckB.specializedQuestions.filter (fun q => q.category = some "C") ≠ []) ∧
    ((handleResponse lt0 sGeneralHinted 5 (Value.str "Yes")).state.quizCompleted = true ∧
      (handleResponse lt0 sGeneralHinted 5 (Value.str "Yes")).state.cancerTypesQueue = ["C"] ∧
      (handleResponse lt0 sGeneralHinted 5 (Value.str "Yes")).effects =
        [Effect.saveAll [], Effect.fetchTier (JNum.fin 0) none] ∧
      sGeneralHinted.specializedQuestions.filter (fun q => q.category = some "C") ≠ []) := by
  constructor
  · refine ⟨?_, ?_, ?_, ?_, ?_⟩ <;> with_unfolding_all decide
  · refine ⟨?_, ?_, ?_, ?_⟩ <;> with_unfolding_all decide

end Claims

end QuirkyQuiz
